import Mathlib

/-!
Verification development for the ping exporter's metrics bridge and ephemeral
target registry.

The first part embeds the collector file (`pingBatchCollector.Collect`,
`pingCollector.Collect` and the descriptor table): pure functions from a
snapshot of probe statistics to the list of Prometheus samples the collectors
push on their channel.  The second part embeds the `startServer` HTTP handler
of `main.go`: the per-request state transition on the ephemeral target
registry (`targetsMap`), its expiry timers, and the probe-engine registration
set, together with the HTTP responses of the `?target=` path.

Machine reals (Go `float64`/`float32`) are modelled over `ℚ`; Go's float
division `x/0` (NaN/Inf) becomes `ℚ`'s `x / 0 = 0` convention, noted at the
theorems this touches.
-/

/- ## Definitions: the shallow embedding -/

/-- `mon.Metrics`, as consumed by both collectors: packet counters plus the
four aggregated RTT statistics (raw values in the engine's millisecond scale,
modelled over `ℚ`). -/
structure Metrics where
  packetsSent : Nat
  packetsLost : Nat
  best : ℚ
  worst : ℚ
  mean : ℚ
  stdDev : ℚ
deriving DecidableEq

/-- A snapshot returned by `monitor.Export()`: Probe Identity string mapped to
its metrics.  A Go map, determinized as an association list; uniqueness of map
keys appears as a `Nodup` hypothesis where a claim needs it. -/
abbrev Snapshot := List (String × Metrics)

/-- Split a character list at the first space, `none` when no space occurs
(helper for Go's `strings.SplitN(target, " ", 3)`). -/
def splitFirstSpace : List Char → Option (List Char × List Char)
  | [] => none
  | c :: cs =>
    if c = ' ' then some ([], cs)
    else
      match splitFirstSpace cs with
      | none => none
      | some (pre, post) => some (c :: pre, post)

/-- Go's `strings.SplitN(s, " ", n)` on character lists: at most `n` pieces,
the last piece keeping the unsplit remainder (`n = 0` yields `nil` as in Go). -/
def goSplitNAux : Nat → List Char → List (List Char)
  | 0, _ => []
  | 1, s => [s]
  | n + 2, s =>
    match splitFirstSpace s with
    | none => [s]
    | some (pre, post) => pre :: goSplitNAux (n + 1) post

/-- `strings.SplitN(target, " ", 3)`, used by both collectors to turn a Probe
Identity string into the label values `target`/`ip`/`ip_version`. -/
def splitN3 (s : String) : List String :=
  (goSplitNAux 3 s.toList).map (fun cs => String.mk cs)

/-- The `metrics.rttunit` toggle (`rttInMills` / seconds / both). -/
inductive RttUnit
  | ms
  | s
  | both
deriving DecidableEq

/-- The two rendering toggles read by the collector code: the
`enableDeprecatedMetrics` global and the `rttMetricsScale` global of
`main.go`. -/
structure RenderConfig where
  enableDeprecatedMetrics : Bool
  rttUnit : RttUnit
deriving DecidableEq

/-- One Prometheus const sample as built by `prometheus.MustNewConstMetric`
(and, for RTT metrics, by the scaled descriptor's `Collect`): the metric base
name handed to `newDesc`/`newScaledDesc`, the unit variant ("ms"/"s" for
scaled RTT descriptors, "" otherwise), the descriptor's variable label names,
the label values supplied at construction time, and the numeric value.
`MustNewConstMetric` panics when the label-value count differs from the
descriptor's label-name count; that error condition is the length mismatch
between the two label fields. -/
structure Sample where
  metric : String
  unit : String
  labelNames : List String
  labelValues : List String
  value : ℚ
deriving DecidableEq

/-- `labelNames` of the collector file: the three variable labels of every
per-identity descriptor. -/
def labelNames : List String := ["target", "ip", "ip_version"]

/-- Modelled from the spec: `newScaledDesc` and the `Collect` method of its
result live in a repository file absent from `src/` (only call sites are
present).  Per the spec, the RTT unit toggle exports each RTT value "as either
millis (default), or seconds (best practice), or both (for migrations)"; a
scaled descriptor therefore renders one raw (millisecond-scale) value as one
sample per selected unit, the seconds variant dividing by 1000. -/
def scaledCollect (u : RttUnit) (metric : String) (lnames lvals : List String) (v : ℚ) :
    List Sample :=
  match u with
  | .ms => [⟨metric, "ms", lnames, lvals, v⟩]
  | .s => [⟨metric, "s", lnames, lvals, v / 1000⟩]
  | .both => [⟨metric, "ms", lnames, lvals, v⟩, ⟨metric, "s", lnames, lvals, v / 1000⟩]

/-- The per-identity rendering performed (verbatim, twice) by
`pingBatchCollector.Collect` and `pingCollector.Collect`: split the identity
into label values, emit the four RTT statistics only when
`PacketsSent > PacketsLost` — preceded by the four `type`-labelled copies when
the deprecated toggle is on — and then always emit the loss ratio
`float64(PacketsLost) / float64(PacketsSent)`. -/
def renderTarget (cfg : RenderConfig) (target : String) (m : Metrics) : List Sample :=
  let l := splitN3 target
  (if m.packetsLost < m.packetsSent then
    (if cfg.enableDeprecatedMetrics then
      scaledCollect cfg.rttUnit "rtt_seconds" (labelNames ++ ["type"]) (l ++ ["best"]) m.best ++
      scaledCollect cfg.rttUnit "rtt_seconds" (labelNames ++ ["type"]) (l ++ ["worst"]) m.worst ++
      scaledCollect cfg.rttUnit "rtt_seconds" (labelNames ++ ["type"]) (l ++ ["mean"]) m.mean ++
      scaledCollect cfg.rttUnit "rtt_seconds" (labelNames ++ ["type"]) (l ++ ["std_dev"]) m.stdDev
    else []) ++
    scaledCollect cfg.rttUnit "rtt_best_seconds" labelNames l m.best ++
    scaledCollect cfg.rttUnit "rtt_worst_seconds" labelNames l m.worst ++
    scaledCollect cfg.rttUnit "rtt_mean_seconds" labelNames l m.mean ++
    scaledCollect cfg.rttUnit "rtt_std_deviation_seconds" labelNames l m.stdDev
  else []) ++
  [⟨"loss_percent", "", labelNames, l, (m.packetsLost : ℚ) / (m.packetsSent : ℚ)⟩]

/-- The `ping_up` gauge (`progDesc`): no variable labels, value 1. -/
def upSample : Sample := ⟨"up", "", [], [], 1⟩

/-- Association-list lookup mirroring Go's map indexing `Export()[target]`
and the `range` over `p.metrics`. -/
def lookupSnap (t : String) : Snapshot → Option Metrics
  | [] => none
  | p :: rest => if p.1 = t then some p.2 else lookupSnap t rest

/-- The full batch rendering of a snapshot: the up gauge followed by every
identity's samples (the body of `pingBatchCollector.Collect` after the
snapshot-refresh step). -/
def renderAll (cfg : RenderConfig) (snap : Snapshot) : List Sample :=
  upSample :: snap.flatMap (fun p => renderTarget cfg p.1 p.2)

/-- `pingBatchCollector.Collect`: pull a fresh snapshot, overwrite the cached
`p.metrics` only when the fresh pull is non-empty, then render the (possibly
cached) snapshot.  Returns the new cache together with the emitted samples. -/
def batchCollect (cfg : RenderConfig) (cached fresh : Snapshot) : Snapshot × List Sample :=
  let served := if fresh.length > 0 then fresh else cached
  (served, renderAll cfg served)

/-- `pingCollector.Collect`: index the fresh snapshot at `p.target`; on a miss
log and return without emitting anything (there is no cached snapshot in this
collector), otherwise emit the up gauge and the one identity's samples. -/
def pingCollect (cfg : RenderConfig) (fresh : Snapshot) (target : String) : List Sample :=
  match lookupSnap target fresh with
  | none => []
  | some m => upSample :: renderTarget cfg target m

/-- The flag defaults of `main.go`: deprecated metrics enabled, millisecond
unit scale. -/
def cfgDefault : RenderConfig := ⟨true, RttUnit.ms⟩

/-- Inverse of the splitter: joining with single spaces recovers the input. -/
def joinSpace : List (List Char) → List Char
  | [] => []
  | [l] => l
  | l :: l2 :: ls => l ++ ' ' :: joinSpace (l2 :: ls)

/-- The samples of an export whose first three label values are the split of
the identity `t` and which moreover satisfy `q` (the labels are the only key
an export carries, so this is how a scrape consumer attributes samples to an
identity). -/
def idFilter (t : String) (q : Sample → Bool) (out : List Sample) : List Sample :=
  out.filter (fun s => (s.labelValues.take 3 == splitN3 t) && q s)

/-- The label property every sample must satisfy so that
`MustNewConstMetric` cannot panic: label-value count equal to the
descriptor's label-name count, the names being one of the three descriptor
shapes of the collector file. -/
def goodLabels (s : Sample) : Prop :=
  s.labelNames.length = s.labelValues.length ∧
    (s.labelNames = [] ∨ s.labelNames = labelNames ∨
      s.labelNames = labelNames ++ ["type"])

/-- The four separately named RTT statistic metrics. -/
def rttStatNames : List String :=
  ["rtt_best_seconds", "rtt_worst_seconds", "rtt_mean_seconds",
   "rtt_std_deviation_seconds"]

/-- Is this sample any RTT sample (named or `type`-labelled)? -/
def isRtt (s : Sample) : Bool :=
  (s.metric == "rtt_seconds") || (s.metric == "rtt_best_seconds") ||
    (s.metric == "rtt_worst_seconds") || (s.metric == "rtt_mean_seconds") ||
    (s.metric == "rtt_std_deviation_seconds")

/-- Does this sample carry the given metric name? -/
def metricIs (nm : String) : Sample → Bool := fun s => s.metric == nm

/-- The pairing between the `type` label values of the deprecated
representation and the separately named RTT metrics. -/
def statPairs : List (String × String) :=
  [("best", "rtt_best_seconds"), ("worst", "rtt_worst_seconds"),
   ("mean", "rtt_mean_seconds"), ("std_dev", "rtt_std_deviation_seconds")]

/-- The values of the identity's `type`-labelled RTT samples with the given
`type` label. -/
def typedRttValues (t ty : String) (out : List Sample) : List ℚ :=
  (idFilter t
    (fun s => (s.metric == "rtt_seconds") && (s.labelValues.getLast? == some ty))
    out).map Sample.value

/-- The values of the identity's samples of one named RTT metric. -/
def namedRttValues (t nm : String) (out : List Sample) : List ℚ :=
  (idFilter t (metricIs nm) out).map Sample.value

/-- Modelled from the spec: `nameForIP` (in a repository file absent from
`src/`) serializes the Probe Identity of a host and one resolved address as
the space-delimited "(hostname, address, address_family)" string. -/
def mkName (host addr fam : String) : String :=
  host ++ " " ++ addr ++ " " ++ fam

/-- One armed `time.AfterFunc` expiry timer: the timer object (identified by
allocation order), the hostname whose `targetsMap` entry it guards, its
absolute deadline `now + targets.timeout`, and the address identities the
callback's captured `target` value would clean up on firing (`t.addresses`
at arm time: the freshly registered identity on the first-request path, and
*empty* on the refresh path, where `addIfNew` is never called on the new
`target` value). -/
structure TimerEntry where
  tid : Nat
  host : String
  deadline : Nat
  cleanup : List String
deriving DecidableEq

/-- The state reachable through the HTTP handler: `targetsMap` (hostname to
stored timer), the live — armed, neither stopped nor fired — timers, the
identities registered with the probe engine, and the timer allocation
counter. -/
structure ServerState where
  registry : List (String × Nat)
  timers : List TimerEntry
  engine : List String
  nextId : Nat
deriving DecidableEq

/-- Server startup: nothing ephemeral yet. -/
def initState : ServerState := ⟨[], [], [], 0⟩

/-- `targetsMap.Load`. -/
def alookup (k : String) : List (String × Nat) → Option Nat
  | [] => none
  | p :: rest => if p.1 = k then some p.2 else alookup k rest

/-- Key removal from the registry (`targetsMap.Delete`, and the overwrite
part of `targetsMap.Store`). -/
def aerase (tg : String) : List (String × Nat) → List (String × Nat)
  | [] => []
  | p :: rest => if p.1 = tg then aerase tg rest else p :: aerase tg rest

/-- Removing a timer from the live set (a `Stop()` call, or its own firing). -/
def tremove (tid : Nat) : List TimerEntry → List TimerEntry
  | [] => []
  | q :: rest => if q.tid = tid then tremove tid rest else q :: tremove tid rest

/-- Finding a live timer by identity. -/
def tfind (tid : Nat) : List TimerEntry → Option TimerEntry
  | [] => none
  | q :: rest => if q.tid = tid then some q else tfind tid rest

/-- `cleanUp`, modelled from the spec: deregister exactly the given address
identities from the probe engine. -/
def eremove (cleanup : List String) : List String → List String
  | [] => []
  | n :: rest => if n ∈ cleanup then eremove cleanup rest else n :: eremove cleanup rest

/-- `addIfNew` success effect, modelled from the spec: registering an
already-registered address with the probe engine is a no-op, a new one is
added. -/
def engineAdd (name : String) (e : List String) : List String :=
  if name ∈ e then e else name :: e

/-- `targetsMap.Store(tg, time.AfterFunc(targets.timeout, ...))`: replace the
stored entry by a fresh timer `T` seconds ahead whose callback will delete
`tg` and clean up `cleanup`. -/
def armTimer (T now : Nat) (tg : String) (cleanup : List String) (s : ServerState) :
    ServerState :=
  { registry := (tg, s.nextId) :: aerase tg s.registry
    timers := ⟨s.nextId, tg, now + T, cleanup⟩ :: s.timers
    engine := s.engine
    nextId := s.nextId + 1 }

/-- The state transition of a *successful* on-demand request for hostname
`tg` whose first resolved address has Probe Identity `name` (the `?target=`
branch of the `startServer` handler): on a registry miss, register the
address (`addIfNew`) — the armed timer's captured target then holds that one
address; on a hit, stop the stored timer — the armed timer's captured target
holds *no* addresses; in both cases store one fresh timer
`targets.timeout` seconds ahead. -/
def requestTransition (T now : Nat) (tg name : String) (s : ServerState) : ServerState :=
  match alookup tg s.registry with
  | none =>
      armTimer T now tg [name] { s with engine := engineAdd name s.engine }
  | some tid =>
      armTimer T now tg [] { s with timers := tremove tid s.timers }

/-- Firing of timer `tid` at time `now` (the `time.AfterFunc` callback,
enabled only for a live timer strictly past its deadline):
`targetsMap.Delete(tg)` followed by `t.cleanUp(t.addresses, monitor)` on the
captured target. -/
def fireTimer (tid now : Nat) (s : ServerState) : ServerState :=
  match tfind tid s.timers with
  | none => s
  | some q =>
      if q.deadline < now then
        { registry := aerase q.host s.registry
          timers := tremove tid s.timers
          engine := eremove q.cleanup s.engine
          nextId := s.nextId }
      else s

/-- Observable registry events: a successful on-demand request, and a timer
callback attempt. -/
inductive Ev where
  | request (tg name : String)
  | fire (tid : Nat)
deriving DecidableEq

/-- One timed event. -/
def stepEv (T : Nat) (s : ServerState) (e : Nat × Ev) : ServerState :=
  match e.2 with
  | .request tg name => requestTransition T e.1 tg name s
  | .fire tid => fireTimer tid e.1 s

/-- Run a timed event trace from the startup state. -/
def runTrace (T : Nat) (tr : List (Nat × Ev)) : ServerState :=
  tr.foldl (stepEv T) initState

/-- The live timers guarding one hostname. -/
def timersOf (s : ServerState) (tg : String) : List TimerEntry :=
  s.timers.filter (fun q => q.host == tg)

/-- Registry/timer bookkeeping invariant: every live timer is the timer its
host's registry entry currently stores, registry keys are unique, timer
identities are unique, and every identity in use is below the allocation
counter. -/
abbrev RegInv (s : ServerState) : Prop :=
  (∀ q ∈ s.timers, alookup q.host s.registry = some q.tid) ∧
  ((s.registry.map Prod.fst).Nodup ∧ (s.timers.map TimerEntry.tid).Nodup) ∧
  ((∀ q ∈ s.timers, q.tid < s.nextId) ∧ (∀ p ∈ s.registry, p.2 < s.nextId))

/-- A response body: plain error text (as written by `http.Error`, which
appends a newline) or a rendered single-target export. -/
inductive Body where
  | text (msg : String)
  | export (samples : List Sample)
deriving DecidableEq

/-- An HTTP response of the on-demand path. -/
structure HttpResponse where
  status : Nat
  body : Body
deriving DecidableEq

/-- The `?target=` branch of the `startServer` metrics handler (main.go
lines 204-248), with its two external calls as inputs: `res` is the
`LookupIPAddr` outcome, `reg` the `addIfNew` outcome (consulted only on the
fresh-registration path).  Resolution error: 400 with the error text; zero
addresses: 400 with "cannot resolve target"; new hostname whose engine
registration fails: 500 — each of these before any state change.  Otherwise
the single-target export for the first address's Probe Identity is rendered
over `snap` (the engine export at scrape time) and the expiry timer is
(re)armed via `requestTransition`. -/
def serveTargetRequest (cfg : RenderConfig) (T now : Nat) (tg fam : String)
    (res : Except String (List String)) (reg : Except String Unit)
    (snap : Snapshot) (s : ServerState) : HttpResponse × ServerState :=
  match res with
  | .error e => (⟨400, .text (e ++ "\n")⟩, s)
  | .ok [] => (⟨400, .text "cannot resolve target\n"⟩, s)
  | .ok (a :: _) =>
    match alookup tg s.registry with
    | none =>
      match reg with
      | .error e => (⟨500, .text (e ++ "\n")⟩, s)
      | .ok _ =>
        (⟨200, .export (pingCollect cfg snap (mkName tg a fam))⟩,
          requestTransition T now tg (mkName tg a fam) s)
    | some _ =>
      (⟨200, .export (pingCollect cfg snap (mkName tg a fam))⟩,
        requestTransition T now tg (mkName tg a fam) s)

/- ## Theorems -/

lemma goSplitNAux_ne_nil : ∀ (n : Nat) (s : List Char), goSplitNAux (n + 1) s ≠ [] := by
  intro n s
  match n with
  | 0 => simp [goSplitNAux]
  | k + 1 =>
    show goSplitNAux (k + 2) s ≠ []
    simp only [goSplitNAux]
    cases hsp : splitFirstSpace s with
    | none => simp
    | some pp => simp

lemma splitN3_ne_nil (t : String) : splitN3 t ≠ [] := by
  simp only [splitN3, ne_eq, List.map_eq_nil_iff]
  exact goSplitNAux_ne_nil 2 t.toList

lemma goSplitNAux_length_le : ∀ (n : Nat) (s : List Char), (goSplitNAux n s).length ≤ n := by
  intro n
  induction n using Nat.strong_induction_on with
  | _ n ih =>
    intro s
    match n with
    | 0 => simp [goSplitNAux]
    | 1 => simp [goSplitNAux]
    | k + 2 =>
      simp only [goSplitNAux]
      cases hsp : splitFirstSpace s with
      | none => simp
      | some pp =>
        simp only [List.length_cons]
        have := ih (k + 1) (by omega) pp.2
        omega

lemma splitN3_length_le (t : String) : (splitN3 t).length ≤ 3 := by
  simpa [splitN3] using goSplitNAux_length_le 3 t.toList

lemma take3_splitN3 (t : String) : (splitN3 t).take 3 = splitN3 t :=
  List.take_of_length_le (splitN3_length_le t)

lemma take3_splitN3_concat (t : String) (h3 : (splitN3 t).length = 3) (x : String) :
    (splitN3 t ++ [x]).take 3 = splitN3 t := by
  rw [← h3]
  exact List.take_left _ _

lemma splitFirstSpace_eq :
    ∀ (s pre post : List Char), splitFirstSpace s = some (pre, post) →
      s = pre ++ ' ' :: post := by
  intro s
  induction s with
  | nil => intro pre post h; simp [splitFirstSpace] at h
  | cons c cs ih =>
    intro pre post h
    simp only [splitFirstSpace] at h
    by_cases hc : c = ' '
    · rw [if_pos hc] at h
      obtain ⟨h1, h2⟩ := Prod.mk.injEq .. ▸ Option.some.inj h
      subst h1; subst h2
      simp [hc]
    · rw [if_neg hc] at h
      cases hsp : splitFirstSpace cs with
      | none => rw [hsp] at h; cases h
      | some pp =>
        rw [hsp] at h
        obtain ⟨p1, p2⟩ := pp
        obtain ⟨h1, h2⟩ := Prod.mk.injEq .. ▸ Option.some.inj h
        subst h1; subst h2
        have := ih p1 p2 hsp
        simp [this]

lemma joinSpace_cons_cons (l l2 : List Char) (ls : List (List Char)) :
    joinSpace (l :: l2 :: ls) = l ++ ' ' :: joinSpace (l2 :: ls) := rfl

lemma joinSpace_goSplitNAux :
    ∀ (n : Nat) (s : List Char), joinSpace (goSplitNAux (n + 1) s) = s := by
  intro n
  induction n with
  | zero => intro s; simp [goSplitNAux, joinSpace]
  | succ k ih =>
    intro s
    show joinSpace (goSplitNAux (k + 2) s) = s
    simp only [goSplitNAux]
    cases hsp : splitFirstSpace s with
    | none => simp [joinSpace]
    | some pp =>
      obtain ⟨pre, post⟩ := pp
      have hs := splitFirstSpace_eq s pre post hsp
      show joinSpace (pre :: goSplitNAux (k + 1) post) = s
      cases hgs : goSplitNAux (k + 1) post with
      | nil => exact absurd hgs (goSplitNAux_ne_nil k post)
      | cons a as =>
        rw [joinSpace_cons_cons, ← hgs, ih post, ← hs]

lemma splitN3_injective {t₁ t₂ : String} (h : splitN3 t₁ = splitN3 t₂) : t₁ = t₂ := by
  have hmk : Function.Injective (fun cs : List Char => String.mk cs) := by
    intro a b hab
    exact congrArg String.data hab
  have h2 : goSplitNAux 3 t₁.toList = goSplitNAux 3 t₂.toList :=
    List.map_injective_iff.mpr hmk h
  have j1 := joinSpace_goSplitNAux 2 t₁.toList
  have j2 := joinSpace_goSplitNAux 2 t₂.toList
  have hl : t₁.toList = t₂.toList := by
    rw [← j1, ← j2, h2]
  cases t₁ with
  | mk d1 =>
    cases t₂ with
    | mk d2 =>
      have hd : d1 = d2 := by simpa [String.toList] using hl
      rw [hd]

lemma lookupSnap_mem {t : String} {m : Metrics} :
    ∀ {snap : Snapshot}, lookupSnap t snap = some m → (t, m) ∈ snap := by
  intro snap
  induction snap with
  | nil => intro h; cases h
  | cons p rest ih =>
    intro h
    simp only [lookupSnap] at h
    by_cases hp : p.1 = t
    · rw [if_pos hp] at h
      have hm : p.2 = m := Option.some.inj h
      have hpt : p = (t, m) := by
        obtain ⟨a, b⟩ := p
        simp only [Prod.mk.injEq]
        exact ⟨hp, hm⟩
      rw [← hpt]
      exact List.mem_cons_self _ _
    · rw [if_neg hp] at h
      exact List.mem_cons_of_mem _ (ih h)

lemma idFilter_append (t : String) (q : Sample → Bool) (o₁ o₂ : List Sample) :
    idFilter t q (o₁ ++ o₂) = idFilter t q o₁ ++ idFilter t q o₂ := by
  simp [idFilter]

lemma up_pred_false (t : String) (q : Sample → Bool) :
    ((upSample.labelValues.take 3 == splitN3 t) && q upSample) = false := by
  have h := splitN3_ne_nil t
  simp [upSample, h]

lemma idFilter_cons_up (t : String) (q : Sample → Bool) (out : List Sample) :
    idFilter t q (upSample :: out) = idFilter t q out := by
  simp only [idFilter, List.filter_cons, up_pred_false t q]
  simp

lemma take3_of_mem_scaled {t : String} {u : RttUnit} {metric : String}
    {lnames lvals : List String} {v : ℚ} (hv : lvals.take 3 = splitN3 t) :
    ∀ s ∈ scaledCollect u metric lnames lvals v, s.labelValues.take 3 = splitN3 t := by
  intro s hs
  cases u with
  | ms =>
    simp only [scaledCollect, List.mem_singleton] at hs
    subst hs; exact hv
  | s =>
    simp only [scaledCollect, List.mem_singleton] at hs
    subst hs; exact hv
  | both =>
    simp only [scaledCollect, List.mem_cons, List.not_mem_nil, or_false] at hs
    rcases hs with rfl | rfl <;> exact hv

lemma take3_of_mem_renderTarget {cfg : RenderConfig} {t : String} {m : Metrics}
    (h3 : (splitN3 t).length = 3) :
    ∀ s ∈ renderTarget cfg t m, s.labelValues.take 3 = splitN3 t := by
  have e1 : ∀ x : String, (splitN3 t ++ [x]).take 3 = splitN3 t := take3_splitN3_concat t h3
  have e2 : (splitN3 t).take 3 = splitN3 t := take3_splitN3 t
  intro s hs
  simp only [renderTarget, List.append_assoc] at hs
  rcases List.mem_append.mp hs with h | h
  · split at h
    · rcases List.mem_append.mp h with h | h
      · split at h
        · rcases List.mem_append.mp h with h | h
          · exact take3_of_mem_scaled (e1 _) s h
          rcases List.mem_append.mp h with h | h
          · exact take3_of_mem_scaled (e1 _) s h
          rcases List.mem_append.mp h with h | h
          · exact take3_of_mem_scaled (e1 _) s h
          · exact take3_of_mem_scaled (e1 _) s h
        · cases h
      · rcases List.mem_append.mp h with h | h
        · exact take3_of_mem_scaled e2 s h
        rcases List.mem_append.mp h with h | h
        · exact take3_of_mem_scaled e2 s h
        rcases List.mem_append.mp h with h | h
        · exact take3_of_mem_scaled e2 s h
        · exact take3_of_mem_scaled e2 s h
    · cases h
  · simp only [List.mem_singleton] at h
    subst h; exact e2

lemma idFilter_renderTarget_ne {cfg : RenderConfig} {t t' : String} (m' : Metrics)
    (h3 : (splitN3 t').length = 3) (hne : t' ≠ t) (q : Sample → Bool) :
    idFilter t q (renderTarget cfg t' m') = [] := by
  rw [idFilter, List.filter_eq_nil_iff]
  intro s hs
  have ht' := take3_of_mem_renderTarget h3 s hs
  intro hp
  have hand := (Bool.and_eq_true _ _).mp hp
  have heq : s.labelValues.take 3 = splitN3 t := eq_of_beq hand.1
  exact hne (splitN3_injective (ht'.symm.trans heq))

lemma idFilter_flatMap_nil (cfg : RenderConfig) (t : String) (q : Sample → Bool) :
    ∀ rest : Snapshot, (∀ p ∈ rest, p.1 ≠ t ∧ (splitN3 p.1).length = 3) →
      idFilter t q (rest.flatMap (fun p => renderTarget cfg p.1 p.2)) = [] := by
  intro rest
  induction rest with
  | nil => intro _; simp [idFilter]
  | cons p ps ih =>
    intro h
    have h1 := h p (List.mem_cons_self p ps)
    rw [List.flatMap_cons, idFilter_append,
      idFilter_renderTarget_ne p.2 h1.2 h1.1 q, List.nil_append]
    exact ih (fun p' hp' => h p' (List.mem_cons_of_mem _ hp'))

/-- Attributing samples to the identity `t`: in a batch export over a
well-formed snapshot containing `t`, the samples matching `t`'s labels are
exactly the ones `t`'s own rendering produced. -/
lemma idFilter_renderAll (cfg : RenderConfig) (t : String) (m : Metrics) (q : Sample → Bool) :
    ∀ snap : Snapshot, (snap.map Prod.fst).Nodup →
      (∀ p ∈ snap, (splitN3 p.1).length = 3) →
      lookupSnap t snap = some m →
      idFilter t q (renderAll cfg snap) = idFilter t q (renderTarget cfg t m) := by
  intro snap
  induction snap with
  | nil => intro _ _ h; cases h
  | cons p ps ih =>
    intro hnd h3 hlk
    have hsplit : renderAll cfg (p :: ps) =
        upSample :: (renderTarget cfg p.1 p.2 ++
          ps.flatMap (fun p => renderTarget cfg p.1 p.2)) := by
      simp [renderAll]
    rw [hsplit, idFilter_cons_up, idFilter_append]
    simp only [List.map_cons, List.nodup_cons] at hnd
    by_cases hp : p.1 = t
    · have hm : p.2 = m := by
        simp only [lookupSnap, if_pos hp] at hlk
        exact Option.some.inj hlk
      have hrest : ∀ p' ∈ ps, p'.1 ≠ t ∧ (splitN3 p'.1).length = 3 := by
        intro p' hp'
        refine ⟨?_, h3 p' (List.mem_cons_of_mem _ hp')⟩
        intro hq
        exact hnd.1 (by
          rw [hp, ← hq]
          exact List.mem_map_of_mem _ hp')
      rw [idFilter_flatMap_nil cfg t q ps hrest, List.append_nil, hp, hm]
    · have hlk' : lookupSnap t ps = some m := by
        simp only [lookupSnap, if_neg hp] at hlk
        exact hlk
      rw [idFilter_renderTarget_ne p.2 (h3 p (List.mem_cons_self p ps)) hp q,
        List.nil_append]
      have hih := ih hnd.2 (fun p' h' => h3 p' (List.mem_cons_of_mem _ h')) hlk'
      rw [renderAll, idFilter_cons_up] at hih
      exact hih

lemma idFilter_ne_nil_of_mem {t : String} {q : Sample → Bool} {s : Sample}
    {out : List Sample} (hmem : s ∈ out)
    (h1 : (s.labelValues.take 3 == splitN3 t) = true) (h2 : q s = true) :
    idFilter t q out ≠ [] := by
  have : s ∈ idFilter t q out := by
    rw [idFilter, List.mem_filter]
    exact ⟨hmem, by rw [h1, h2]; rfl⟩
  exact List.ne_nil_of_mem this

lemma renderTarget_nonpos {cfg : RenderConfig} {t : String} {m : Metrics}
    (h : m.packetsSent ≤ m.packetsLost) :
    renderTarget cfg t m =
      [⟨"loss_percent", "", labelNames, splitN3 t,
        (m.packetsLost : ℚ) / (m.packetsSent : ℚ)⟩] := by
  have hn : ¬ m.packetsLost < m.packetsSent := not_lt.mpr h
  simp [renderTarget, hn]

lemma loss_mem_renderTarget (cfg : RenderConfig) (t : String) (m : Metrics) :
    (⟨"loss_percent", "", labelNames, splitN3 t,
      (m.packetsLost : ℚ) / (m.packetsSent : ℚ)⟩ : Sample) ∈ renderTarget cfg t m := by
  simp [renderTarget]

/-- C1 counterexample: the claim asserts the cached-snapshot fallback for
*both* render modes, but the single-target collector (`pingCollector`, which
has no `metrics` cache field at all) indexes only the fresh `Export()` result:
when the fresh snapshot is empty it reports nothing instead of serving any
previously non-empty data.  Concrete input: an empty fresh snapshot and the
identity "example.com 93.184.216.34 ip4". -/
theorem c1_counterexample :
    pingCollect cfgDefault [] "example.com 93.184.216.34 ip4" = [] := rfl

/-- C1 (amended): a fresh snapshot is consumed on every export call in both
modes, but only the batch collector keeps a cache: a batch export with a
non-empty fresh snapshot is rendered from (and caches) the fresh snapshot, a
batch export with an empty fresh snapshot behaves exactly as if the engine had
returned the cached snapshot, and a single-target export over an empty fresh
snapshot emits nothing — there is no cache to fall back to. -/
theorem c1_amended :
    (∀ (cfg : RenderConfig) (cached fresh : Snapshot), fresh ≠ [] →
        batchCollect cfg cached fresh = batchCollect cfg fresh fresh) ∧
    (∀ (cfg : RenderConfig) (cached : Snapshot),
        batchCollect cfg cached [] = batchCollect cfg cached cached) ∧
    (∀ (cfg : RenderConfig) (t : String), pingCollect cfg [] t = []) := by
  refine ⟨?_, ?_, ?_⟩
  · intro cfg cached fresh hne
    have hl : fresh.length > 0 := List.length_pos.mpr hne
    simp [batchCollect, hl]
  · intro cfg cached
    simp [batchCollect]
  · intro cfg t
    rfl

/-- Witness for C1 (amended) at a concrete snapshot. -/
theorem c1_amended_witness :
    batchCollect cfgDefault [] [("h 1.2.3.4 ip4", ⟨1, 0, 1, 1, 1, 0⟩)] =
      batchCollect cfgDefault [("h 1.2.3.4 ip4", ⟨1, 0, 1, 1, 1, 0⟩)]
        [("h 1.2.3.4 ip4", ⟨1, 0, 1, 1, 1, 0⟩)] :=
  c1_amended.1 cfgDefault [] _ (List.cons_ne_nil _ _)

/-- C10: in single-target mode, when the fresh snapshot does not contain the
requested Probe Identity, the collector returns before emitting anything (the
miss is only logged): no up gauge, no loss ratio, no sample at all. -/
theorem c10_single_miss_silent :
    ∀ (cfg : RenderConfig) (fresh : Snapshot) (t : String),
      lookupSnap t fresh = none → pingCollect cfg fresh t = [] := by
  intro cfg fresh t h
  simp [pingCollect, h]

/-- Witness for C10: a snapshot holding a different identity. -/
theorem c10_witness :
    pingCollect cfgDefault [("a b c", ⟨1, 0, 1, 1, 1, 0⟩)] "x y z" = [] :=
  c10_single_miss_silent cfgDefault _ _ rfl

/-- C3: for every rendered Probe Identity — in batch mode for every entry of
the served snapshot, in single-target mode whenever the lookup succeeds — a
`loss_percent` sample with value `packets_lost / packets_sent` is emitted
unconditionally (in particular also when `packets_sent = 0`; Go's float
division yields NaN there, the `ℚ` model yields 0, and the claim's interval
statement applies only under `packets_sent > 0`); and under
`0 < packets_sent` and `packets_lost ≤ packets_sent` that value lies in
`[0, 1]`. -/
theorem c3_loss_ratio :
    (∀ (cfg : RenderConfig) (cached fresh : Snapshot) (t : String) (m : Metrics),
        (t, m) ∈ (batchCollect cfg cached fresh).1 →
        (⟨"loss_percent", "", labelNames, splitN3 t,
            (m.packetsLost : ℚ) / (m.packetsSent : ℚ)⟩ : Sample) ∈
          (batchCollect cfg cached fresh).2) ∧
    (∀ (cfg : RenderConfig) (fresh : Snapshot) (t : String) (m : Metrics),
        lookupSnap t fresh = some m →
        (⟨"loss_percent", "", labelNames, splitN3 t,
            (m.packetsLost : ℚ) / (m.packetsSent : ℚ)⟩ : Sample) ∈
          pingCollect cfg fresh t) ∧
    (∀ m : Metrics, 0 < m.packetsSent → m.packetsLost ≤ m.packetsSent →
        0 ≤ (m.packetsLost : ℚ) / (m.packetsSent : ℚ) ∧
          (m.packetsLost : ℚ) / (m.packetsSent : ℚ) ≤ 1) := by
  refine ⟨?_, ?_, ?_⟩
  · intro cfg cached fresh t m hmem
    have h2 : (batchCollect cfg cached fresh).2 =
        renderAll cfg (batchCollect cfg cached fresh).1 := rfl
    rw [h2, renderAll]
    exact List.mem_cons_of_mem _
      (List.mem_flatMap.mpr ⟨(t, m), hmem, loss_mem_renderTarget cfg t m⟩)
  · intro cfg fresh t m h
    simp only [pingCollect, h]
    exact List.mem_cons_of_mem _ (loss_mem_renderTarget cfg t m)
  · intro m hpos hle
    constructor
    · positivity
    · rw [div_le_one (by exact_mod_cast hpos)]
      exact_mod_cast hle

/-- Witness for C3 at a concrete snapshot (10 sent, 2 lost). -/
theorem c3_witness :
    ((⟨"loss_percent", "", labelNames, splitN3 "h 1.2.3.4 ip4",
        (2 : ℚ) / 10⟩ : Sample) ∈
      (batchCollect cfgDefault [] [("h 1.2.3.4 ip4", ⟨10, 2, 1, 2, 3, 1⟩)]).2) ∧
    (0 ≤ (2 : ℚ) / 10 ∧ (2 : ℚ) / 10 ≤ 1) := by
  have h1 := c3_loss_ratio.1 cfgDefault [] [("h 1.2.3.4 ip4", ⟨10, 2, 1, 2, 3, 1⟩)]
    "h 1.2.3.4 ip4" ⟨10, 2, 1, 2, 3, 1⟩ (by simp [batchCollect])
  have h2 := c3_loss_ratio.2.2 ⟨10, 2, 1, 2, 3, 1⟩ (by decide) (by decide)
  exact ⟨by simpa using h1, by simpa using h2⟩

lemma goodLabels_of_mem_scaled {u : RttUnit} {metric : String}
    {lnames lvals : List String} {v : ℚ}
    (h : lnames.length = lvals.length)
    (hn : lnames = labelNames ∨ lnames = labelNames ++ ["type"]) :
    ∀ s ∈ scaledCollect u metric lnames lvals v, goodLabels s := by
  intro s hs
  cases u with
  | ms =>
    simp only [scaledCollect, List.mem_singleton] at hs
    subst hs; exact ⟨h, Or.inr hn⟩
  | s =>
    simp only [scaledCollect, List.mem_singleton] at hs
    subst hs; exact ⟨h, Or.inr hn⟩
  | both =>
    simp only [scaledCollect, List.mem_cons, List.not_mem_nil, or_false] at hs
    rcases hs with rfl | rfl <;> exact ⟨h, Or.inr hn⟩

lemma goodLabels_of_mem_renderTarget {cfg : RenderConfig} {t : String} {m : Metrics}
    (h3 : (splitN3 t).length = 3) :
    ∀ s ∈ renderTarget cfg t m, goodLabels s := by
  have hlen3 : labelNames.length = (splitN3 t).length := by simp [labelNames, h3]
  have hlen4 : ∀ x : String,
      (labelNames ++ ["type"]).length = (splitN3 t ++ [x]).length := by
    intro x; simp [labelNames, h3]
  intro s hs
  simp only [renderTarget, List.append_assoc] at hs
  rcases List.mem_append.mp hs with h | h
  · split at h
    · rcases List.mem_append.mp h with h | h
      · split at h
        · rcases List.mem_append.mp h with h | h
          · exact goodLabels_of_mem_scaled (hlen4 _) (Or.inr rfl) s h
          rcases List.mem_append.mp h with h | h
          · exact goodLabels_of_mem_scaled (hlen4 _) (Or.inr rfl) s h
          rcases List.mem_append.mp h with h | h
          · exact goodLabels_of_mem_scaled (hlen4 _) (Or.inr rfl) s h
          · exact goodLabels_of_mem_scaled (hlen4 _) (Or.inr rfl) s h
        · cases h
      · rcases List.mem_append.mp h with h | h
        · exact goodLabels_of_mem_scaled hlen3 (Or.inl rfl) s h
        rcases List.mem_append.mp h with h | h
        · exact goodLabels_of_mem_scaled hlen3 (Or.inl rfl) s h
        rcases List.mem_append.mp h with h | h
        · exact goodLabels_of_mem_scaled hlen3 (Or.inl rfl) s h
        · exact goodLabels_of_mem_scaled hlen3 (Or.inl rfl) s h
    · cases h
  · simp only [List.mem_singleton] at h
    subst h
    exact ⟨hlen3, Or.inr (Or.inl rfl)⟩

/-- C8: when every identity consumed as metric labels splits into exactly
three parts, every sample either collector produces carries a label-value
list whose length matches its descriptor's label-name list (so
`MustNewConstMetric` cannot fail on a label-count mismatch), and those label
names are exactly `target`/`ip`/`ip_version` — empty for the up gauge, with
the additional trailing `type` label for the deprecated RTT samples. -/
theorem c8_label_safety :
    (∀ (cfg : RenderConfig) (cached fresh : Snapshot),
        (∀ p ∈ (batchCollect cfg cached fresh).1, (splitN3 p.1).length = 3) →
        ∀ s ∈ (batchCollect cfg cached fresh).2, goodLabels s) ∧
    (∀ (cfg : RenderConfig) (fresh : Snapshot) (t : String),
        (splitN3 t).length = 3 →
        ∀ s ∈ pingCollect cfg fresh t, goodLabels s) := by
  have hup : goodLabels upSample := ⟨rfl, Or.inl rfl⟩
  constructor
  · intro cfg cached fresh h3 s hs
    have h2 : (batchCollect cfg cached fresh).2 =
        renderAll cfg (batchCollect cfg cached fresh).1 := rfl
    rw [h2, renderAll] at hs
    rcases List.mem_cons.mp hs with rfl | hs
    · exact hup
    · obtain ⟨p, hp, hsp⟩ := List.mem_flatMap.mp hs
      exact goodLabels_of_mem_renderTarget (h3 p hp) s hsp
  · intro cfg fresh t h3 s hs
    rw [pingCollect] at hs
    cases hlk : lookupSnap t fresh with
    | none => rw [hlk] at hs; cases hs
    | some m =>
      rw [hlk] at hs
      rcases List.mem_cons.mp hs with rfl | hs
      · exact hup
      · exact goodLabels_of_mem_renderTarget h3 s hs

/-- Witness for C8 at a concrete one-entry snapshot. -/
theorem c8_witness :
    ∀ s ∈ (batchCollect cfgDefault [] [("h 1.2.3.4 ip4", ⟨10, 2, 1, 2, 3, 1⟩)]).2,
      goodLabels s :=
  c8_label_safety.1 cfgDefault [] [("h 1.2.3.4 ip4", ⟨10, 2, 1, 2, 3, 1⟩)]
    (by decide)

lemma isRtt_loss_false (l : List String) (v : ℚ) :
    isRtt ⟨"loss_percent", "", labelNames, l, v⟩ = false := rfl

lemma isRtt_up_false : isRtt upSample = false := rfl

lemma idFilter_singleton_nil (t : String) (q : Sample → Bool) (s : Sample)
    (hq : q s = false) : idFilter t q [s] = [] := by
  simp [idFilter, hq]

lemma take3_beq_self (t : String) : ((splitN3 t).take 3 == splitN3 t) = true := by
  simp [take3_splitN3 t]

lemma named_present {t : String} (cfg : RenderConfig) (m : Metrics)
    (hlt : m.packetsLost < m.packetsSent) :
    ∀ nm ∈ rttStatNames, idFilter t (metricIs nm) (renderTarget cfg t m) ≠ [] := by
  have hb := take3_beq_self t
  intro nm hnm
  obtain ⟨dep, u⟩ := cfg
  simp only [rttStatNames, List.mem_cons, List.not_mem_nil, or_false] at hnm
  rcases hnm with rfl | rfl | rfl | rfl
  · cases u with
    | ms =>
      exact idFilter_ne_nil_of_mem
        (s := ⟨"rtt_best_seconds", "ms", labelNames, splitN3 t, m.best⟩)
        (by simp [renderTarget, scaledCollect, hlt]) hb (by simp [metricIs])
    | s =>
      exact idFilter_ne_nil_of_mem
        (s := ⟨"rtt_best_seconds", "s", labelNames, splitN3 t, m.best / 1000⟩)
        (by simp [renderTarget, scaledCollect, hlt]) hb (by simp [metricIs])
    | both =>
      exact idFilter_ne_nil_of_mem
        (s := ⟨"rtt_best_seconds", "ms", labelNames, splitN3 t, m.best⟩)
        (by simp [renderTarget, scaledCollect, hlt]) hb (by simp [metricIs])
  · cases u with
    | ms =>
      exact idFilter_ne_nil_of_mem
        (s := ⟨"rtt_worst_seconds", "ms", labelNames, splitN3 t, m.worst⟩)
        (by simp [renderTarget, scaledCollect, hlt]) hb (by simp [metricIs])
    | s =>
      exact idFilter_ne_nil_of_mem
        (s := ⟨"rtt_worst_seconds", "s", labelNames, splitN3 t, m.worst / 1000⟩)
        (by simp [renderTarget, scaledCollect, hlt]) hb (by simp [metricIs])
    | both =>
      exact idFilter_ne_nil_of_mem
        (s := ⟨"rtt_worst_seconds", "ms", labelNames, splitN3 t, m.worst⟩)
        (by simp [renderTarget, scaledCollect, hlt]) hb (by simp [metricIs])
  · cases u with
    | ms =>
      exact idFilter_ne_nil_of_mem
        (s := ⟨"rtt_mean_seconds", "ms", labelNames, splitN3 t, m.mean⟩)
        (by simp [renderTarget, scaledCollect, hlt]) hb (by simp [metricIs])
    | s =>
      exact idFilter_ne_nil_of_mem
        (s := ⟨"rtt_mean_seconds", "s", labelNames, splitN3 t, m.mean / 1000⟩)
        (by simp [renderTarget, scaledCollect, hlt]) hb (by simp [metricIs])
    | both =>
      exact idFilter_ne_nil_of_mem
        (s := ⟨"rtt_mean_seconds", "ms", labelNames, splitN3 t, m.mean⟩)
        (by simp [renderTarget, scaledCollect, hlt]) hb (by simp [metricIs])
  · cases u with
    | ms =>
      exact idFilter_ne_nil_of_mem
        (s := ⟨"rtt_std_deviation_seconds", "ms", labelNames, splitN3 t, m.stdDev⟩)
        (by simp [renderTarget, scaledCollect, hlt]) hb (by simp [metricIs])
    | s =>
      exact idFilter_ne_nil_of_mem
        (s := ⟨"rtt_std_deviation_seconds", "s", labelNames, splitN3 t,
          m.stdDev / 1000⟩)
        (by simp [renderTarget, scaledCollect, hlt]) hb (by simp [metricIs])
    | both =>
      exact idFilter_ne_nil_of_mem
        (s := ⟨"rtt_std_deviation_seconds", "ms", labelNames, splitN3 t, m.stdDev⟩)
        (by simp [renderTarget, scaledCollect, hlt]) hb (by simp [metricIs])

lemma metricIs_named_loss_false (nm : String) (hnm : nm ∈ rttStatNames)
    (l : List String) (v : ℚ) :
    metricIs nm ⟨"loss_percent", "", labelNames, l, v⟩ = false := by
  simp only [rttStatNames, List.mem_cons, List.not_mem_nil, or_false] at hnm
  rcases hnm with rfl | rfl | rfl | rfl <;> rfl

/-- C2: for every Probe Identity in a rendered snapshot — batch mode over a
well-formed served snapshot (distinct keys, three-part identities), single
mode for the one looked-up identity — the four named RTT statistics are all
present among that identity's samples exactly when
`packets_sent > packets_lost`, and when `packets_sent ≤ packets_lost` not a
single RTT sample (named or `type`-labelled) is attributable to it. -/
theorem c2_rtt_iff :
    (∀ (cfg : RenderConfig) (cached fresh : Snapshot) (t : String) (m : Metrics),
        (((batchCollect cfg cached fresh).1.map Prod.fst).Nodup) →
        (∀ p ∈ (batchCollect cfg cached fresh).1, (splitN3 p.1).length = 3) →
        lookupSnap t (batchCollect cfg cached fresh).1 = some m →
        (((∀ nm ∈ rttStatNames,
            idFilter t (metricIs nm) (batchCollect cfg cached fresh).2 ≠ []) ↔
              m.packetsLost < m.packetsSent) ∧
          (m.packetsSent ≤ m.packetsLost →
            idFilter t isRtt (batchCollect cfg cached fresh).2 = []))) ∧
    (∀ (cfg : RenderConfig) (fresh : Snapshot) (t : String) (m : Metrics),
        lookupSnap t fresh = some m →
        (((∀ nm ∈ rttStatNames,
            idFilter t (metricIs nm) (pingCollect cfg fresh t) ≠ []) ↔
              m.packetsLost < m.packetsSent) ∧
          (m.packetsSent ≤ m.packetsLost →
            (pingCollect cfg fresh t).filter isRtt = []))) := by
  constructor
  · intro cfg cached fresh t m hnd h3 hlk
    have h2 : (batchCollect cfg cached fresh).2 =
        renderAll cfg (batchCollect cfg cached fresh).1 := rfl
    have hdec : ∀ q : Sample → Bool,
        idFilter t q (batchCollect cfg cached fresh).2 =
          idFilter t q (renderTarget cfg t m) := by
      intro q
      rw [h2]
      exact idFilter_renderAll cfg t m q _ hnd h3 hlk
    constructor
    · constructor
      · intro hall
        by_contra hge
        have hle : m.packetsSent ≤ m.packetsLost := not_lt.mp hge
        have hbest := hall "rtt_best_seconds" (by simp [rttStatNames])
        rw [hdec, renderTarget_nonpos hle] at hbest
        exact hbest (idFilter_singleton_nil t _ _
          (metricIs_named_loss_false _ (by simp [rttStatNames]) _ _))
      · intro hlt nm hnm
        rw [hdec]
        exact named_present cfg m hlt nm hnm
    · intro hle
      rw [hdec, renderTarget_nonpos hle]
      exact idFilter_singleton_nil t _ _ (isRtt_loss_false _ _)
  · intro cfg fresh t m hlk
    have hpc : pingCollect cfg fresh t = upSample :: renderTarget cfg t m := by
      simp [pingCollect, hlk]
    constructor
    · constructor
      · intro hall
        by_contra hge
        have hle : m.packetsSent ≤ m.packetsLost := not_lt.mp hge
        have hbest := hall "rtt_best_seconds" (by simp [rttStatNames])
        rw [hpc, idFilter_cons_up, renderTarget_nonpos hle] at hbest
        exact hbest (idFilter_singleton_nil t _ _
          (metricIs_named_loss_false _ (by simp [rttStatNames]) _ _))
      · intro hlt nm hnm
        rw [hpc, idFilter_cons_up]
        exact named_present cfg m hlt nm hnm
    · intro hle
      rw [hpc, renderTarget_nonpos hle]
      simp [List.filter, isRtt_up_false, isRtt_loss_false]

/-- Witness for C2 in single-target mode at a concrete snapshot
(10 sent, 2 lost). -/
theorem c2_witness :
    ((∀ nm ∈ rttStatNames,
        idFilter "h 1.2.3.4 ip4" (metricIs nm)
          (pingCollect cfgDefault [("h 1.2.3.4 ip4", ⟨10, 2, 1, 2, 3, 1⟩)]
            "h 1.2.3.4 ip4") ≠ []) ↔ 2 < 10) ∧
      (10 ≤ 2 →
        (pingCollect cfgDefault [("h 1.2.3.4 ip4", ⟨10, 2, 1, 2, 3, 1⟩)]
          "h 1.2.3.4 ip4").filter isRtt = []) :=
  c2_rtt_iff.2 cfgDefault [("h 1.2.3.4 ip4", ⟨10, 2, 1, 2, 3, 1⟩)]
    "h 1.2.3.4 ip4" ⟨10, 2, 1, 2, 3, 1⟩ rfl

lemma typed_eq_named_renderTarget {t : String} (u : RttUnit) (m : Metrics)
    (h3 : (splitN3 t).length = 3) (hlt : m.packetsLost < m.packetsSent) :
    ∀ p ∈ statPairs,
      typedRttValues t p.1 (renderTarget ⟨true, u⟩ t m) =
        namedRttValues t p.2 (renderTarget ⟨true, u⟩ t m) ∧
      typedRttValues t p.1 (renderTarget ⟨true, u⟩ t m) ≠ [] := by
  have e1 : ∀ x : String, (splitN3 t ++ [x]).take 3 = splitN3 t :=
    take3_splitN3_concat t h3
  have e2 := take3_splitN3 t
  intro p hp
  simp only [statPairs, List.mem_cons, List.not_mem_nil, or_false] at hp
  rcases hp with rfl | rfl | rfl | rfl <;> cases u <;>
    constructor <;>
      simp [typedRttValues, namedRttValues, idFilter, renderTarget, scaledCollect,
        metricIs, e1, e2, List.getLast?_concat, hlt]

lemma filter_typed_cons_up (X : List Sample) :
    (upSample :: X).filter (metricIs "rtt_seconds") =
      X.filter (metricIs "rtt_seconds") := by
  simp [List.filter_cons, metricIs, upSample]

lemma renderTarget_no_typed (u : RttUnit) (t : String) (m : Metrics) :
    (renderTarget ⟨false, u⟩ t m).filter (metricIs "rtt_seconds") = [] := by
  by_cases hlt : m.packetsLost < m.packetsSent <;> cases u <;>
    simp [renderTarget, scaledCollect, metricIs, hlt]

lemma renderAll_no_typed (u : RttUnit) (snap : Snapshot) :
    (renderAll ⟨false, u⟩ snap).filter (metricIs "rtt_seconds") = [] := by
  induction snap with
  | nil =>
    show (upSample :: []).filter (metricIs "rtt_seconds") = []
    rw [filter_typed_cons_up]
    rfl
  | cons p ps ih =>
    have hr : renderAll ⟨false, u⟩ (p :: ps) =
        upSample :: (renderTarget ⟨false, u⟩ p.1 p.2 ++
          ps.flatMap (fun q => renderTarget ⟨false, u⟩ q.1 q.2)) := by
      simp [renderAll]
    have hihx : (ps.flatMap (fun q => renderTarget ⟨false, u⟩ q.1 q.2)).filter
        (metricIs "rtt_seconds") = [] := by
      have hthis := ih
      rw [renderAll, filter_typed_cons_up] at hthis
      exact hthis
    rw [hr, filter_typed_cons_up, List.filter_append, renderTarget_no_typed, hihx]
    rfl

/-- C9: with the deprecated toggle enabled, for every rendered Probe Identity
with `packets_sent > packets_lost` (batch over a well-formed snapshot, or
single-target), the `type`-labelled RTT sample values coincide, `type` by
`type` and across every selected unit, with the values of the corresponding
separately named RTT metrics emitted alongside, and they are actually
emitted; with the toggle disabled, neither collector emits a single
`type`-labelled (`rtt_seconds`) sample. -/
theorem c9_deprecated_consistency :
    (∀ (u : RttUnit) (cached fresh : Snapshot) (t : String) (m : Metrics),
        (((batchCollect ⟨true, u⟩ cached fresh).1.map Prod.fst).Nodup) →
        (∀ p ∈ (batchCollect ⟨true, u⟩ cached fresh).1, (splitN3 p.1).length = 3) →
        lookupSnap t (batchCollect ⟨true, u⟩ cached fresh).1 = some m →
        m.packetsLost < m.packetsSent →
        ∀ p ∈ statPairs,
          typedRttValues t p.1 (batchCollect ⟨true, u⟩ cached fresh).2 =
            namedRttValues t p.2 (batchCollect ⟨true, u⟩ cached fresh).2 ∧
          typedRttValues t p.1 (batchCollect ⟨true, u⟩ cached fresh).2 ≠ []) ∧
    (∀ (u : RttUnit) (fresh : Snapshot) (t : String) (m : Metrics),
        lookupSnap t fresh = some m → (splitN3 t).length = 3 →
        m.packetsLost < m.packetsSent →
        ∀ p ∈ statPairs,
          typedRttValues t p.1 (pingCollect ⟨true, u⟩ fresh t) =
            namedRttValues t p.2 (pingCollect ⟨true, u⟩ fresh t) ∧
          typedRttValues t p.1 (pingCollect ⟨true, u⟩ fresh t) ≠ []) ∧
    (∀ (u : RttUnit) (cached fresh : Snapshot),
        (batchCollect ⟨false, u⟩ cached fresh).2.filter (metricIs "rtt_seconds") =
          []) ∧
    (∀ (u : RttUnit) (fresh : Snapshot) (t : String),
        (pingCollect ⟨false, u⟩ fresh t).filter (metricIs "rtt_seconds") = []) := by
  refine ⟨?_, ?_, ?_, ?_⟩
  · intro u cached fresh t m hnd h3 hlk hlt p hp
    have h3t : (splitN3 t).length = 3 := h3 _ (lookupSnap_mem hlk)
    have h2 : (batchCollect ⟨true, u⟩ cached fresh).2 =
        renderAll ⟨true, u⟩ (batchCollect ⟨true, u⟩ cached fresh).1 := rfl
    have hdec : ∀ q : Sample → Bool,
        idFilter t q (batchCollect ⟨true, u⟩ cached fresh).2 =
          idFilter t q (renderTarget ⟨true, u⟩ t m) := by
      intro q
      rw [h2]
      exact idFilter_renderAll _ t m q _ hnd h3 hlk
    have hrt := typed_eq_named_renderTarget u m h3t hlt p hp
    rw [typedRttValues, namedRttValues, hdec, hdec]
    exact hrt
  · intro u fresh t m hlk h3t hlt p hp
    have hpc : pingCollect ⟨true, u⟩ fresh t =
        upSample :: renderTarget ⟨true, u⟩ t m := by
      simp [pingCollect, hlk]
    have hrt := typed_eq_named_renderTarget u m h3t hlt p hp
    rw [typedRttValues, namedRttValues, hpc, idFilter_cons_up, idFilter_cons_up]
    exact hrt
  · intro u cached fresh
    have h2 : (batchCollect ⟨false, u⟩ cached fresh).2 =
        renderAll ⟨false, u⟩ (batchCollect ⟨false, u⟩ cached fresh).1 := rfl
    rw [h2]
    exact renderAll_no_typed u _
  · intro u fresh t
    rw [pingCollect]
    cases hlk : lookupSnap t fresh with
    | none => rfl
    | some m =>
      rw [filter_typed_cons_up]
      exact renderTarget_no_typed u t m

/-- Witness for C9 in single-target mode at a concrete snapshot
(10 sent, 2 lost). -/
theorem c9_witness :
    ∀ p ∈ statPairs,
      typedRttValues "h 1.2.3.4 ip4" p.1
          (pingCollect ⟨true, RttUnit.both⟩
            [("h 1.2.3.4 ip4", ⟨10, 2, 1, 2, 3, 1⟩)] "h 1.2.3.4 ip4") =
        namedRttValues "h 1.2.3.4 ip4" p.2
          (pingCollect ⟨true, RttUnit.both⟩
            [("h 1.2.3.4 ip4", ⟨10, 2, 1, 2, 3, 1⟩)] "h 1.2.3.4 ip4") ∧
      typedRttValues "h 1.2.3.4 ip4" p.1
          (pingCollect ⟨true, RttUnit.both⟩
            [("h 1.2.3.4 ip4", ⟨10, 2, 1, 2, 3, 1⟩)] "h 1.2.3.4 ip4") ≠ [] :=
  c9_deprecated_consistency.2.1 RttUnit.both
    [("h 1.2.3.4 ip4", ⟨10, 2, 1, 2, 3, 1⟩)] "h 1.2.3.4 ip4"
    ⟨10, 2, 1, 2, 3, 1⟩ rfl (by decide) (by decide)

lemma alookup_mem {k : String} {v : Nat} :
    ∀ {l : List (String × Nat)}, alookup k l = some v → (k, v) ∈ l := by
  intro l
  induction l with
  | nil => intro h; cases h
  | cons p rest ih =>
    intro h
    simp only [alookup] at h
    by_cases hp : p.1 = k
    · have hv : p.2 = v := by rw [if_pos hp] at h; exact Option.some.inj h
      have hpt : p = (k, v) := by
        obtain ⟨a, b⟩ := p
        simp only [Prod.mk.injEq]
        exact ⟨hp, hv⟩
      rw [← hpt]
      exact List.mem_cons_self _ _
    · rw [if_neg hp] at h
      exact List.mem_cons_of_mem _ (ih h)

lemma alookup_aerase_ne {k tg : String} (hne : k ≠ tg) :
    ∀ l : List (String × Nat), alookup k (aerase tg l) = alookup k l := by
  intro l
  induction l with
  | nil => rfl
  | cons p rest ih =>
    simp only [aerase]
    by_cases hp : p.1 = tg
    · rw [if_pos hp]
      have hpk : ¬ p.1 = k := by
        rw [hp]
        exact fun hh => hne hh.symm
      rw [ih]
      simp only [alookup]
      rw [if_neg hpk]
    · rw [if_neg hp]
      simp only [alookup]
      by_cases hk : p.1 = k
      · rw [if_pos hk, if_pos hk]
      · rw [if_neg hk, if_neg hk]
        exact ih

lemma mem_aerase {p : String × Nat} {tg : String} :
    ∀ {l : List (String × Nat)}, p ∈ aerase tg l → p ∈ l ∧ p.1 ≠ tg := by
  intro l
  induction l with
  | nil => intro h; cases h
  | cons q rest ih =>
    intro h
    simp only [aerase] at h
    by_cases hq : q.1 = tg
    · rw [if_pos hq] at h
      have := ih h
      exact ⟨List.mem_cons_of_mem _ this.1, this.2⟩
    · rw [if_neg hq] at h
      rcases List.mem_cons.mp h with rfl | h2
      · exact ⟨List.mem_cons_self _ _, hq⟩
      · have := ih h2
        exact ⟨List.mem_cons_of_mem _ this.1, this.2⟩

lemma aerase_keys_nodup {tg : String} :
    ∀ {l : List (String × Nat)}, (l.map Prod.fst).Nodup →
      ((aerase tg l).map Prod.fst).Nodup := by
  intro l
  induction l with
  | nil => intro h; exact h
  | cons q rest ih =>
    intro h
    simp only [List.map_cons, List.nodup_cons] at h
    simp only [aerase]
    by_cases hq : q.1 = tg
    · rw [if_pos hq]
      exact ih h.2
    · rw [if_neg hq]
      simp only [List.map_cons, List.nodup_cons]
      refine ⟨?_, ih h.2⟩
      intro hmem
      obtain ⟨p, hp, hpe⟩ := List.mem_map.mp hmem
      apply h.1
      rw [← hpe]
      exact List.mem_map_of_mem _ (mem_aerase hp).1

lemma mem_tremove {q : TimerEntry} {tid : Nat} :
    ∀ {l : List TimerEntry}, q ∈ tremove tid l → q ∈ l ∧ q.tid ≠ tid := by
  intro l
  induction l with
  | nil => intro h; cases h
  | cons r rest ih =>
    intro h
    simp only [tremove] at h
    by_cases hr : r.tid = tid
    · rw [if_pos hr] at h
      have := ih h
      exact ⟨List.mem_cons_of_mem _ this.1, this.2⟩
    · rw [if_neg hr] at h
      rcases List.mem_cons.mp h with rfl | h2
      · exact ⟨List.mem_cons_self _ _, hr⟩
      · have := ih h2
        exact ⟨List.mem_cons_of_mem _ this.1, this.2⟩

lemma tremove_tids_nodup {tid : Nat} :
    ∀ {l : List TimerEntry}, (l.map TimerEntry.tid).Nodup →
      ((tremove tid l).map TimerEntry.tid).Nodup := by
  intro l
  induction l with
  | nil => intro h; exact h
  | cons q rest ih =>
    intro h
    simp only [List.map_cons, List.nodup_cons] at h
    simp only [tremove]
    by_cases hq : q.tid = tid
    · rw [if_pos hq]
      exact ih h.2
    · rw [if_neg hq]
      simp only [List.map_cons, List.nodup_cons]
      refine ⟨?_, ih h.2⟩
      intro hmem
      obtain ⟨r, hr, hre⟩ := List.mem_map.mp hmem
      apply h.1
      rw [← hre]
      exact List.mem_map_of_mem _ (mem_tremove hr).1

lemma tfind_spec {tid : Nat} {q : TimerEntry} :
    ∀ {l : List TimerEntry}, tfind tid l = some q → q ∈ l ∧ q.tid = tid := by
  intro l
  induction l with
  | nil => intro h; cases h
  | cons r rest ih =>
    intro h
    simp only [tfind] at h
    by_cases hr : r.tid = tid
    · rw [if_pos hr] at h
      obtain rfl : r = q := Option.some.inj h
      exact ⟨List.mem_cons_self _ _, hr⟩
    · rw [if_neg hr] at h
      have := ih h
      exact ⟨List.mem_cons_of_mem _ this.1, this.2⟩

lemma RegInv_init : RegInv initState := by
  refine ⟨?_, ⟨?_, ?_⟩, ⟨?_, ?_⟩⟩ <;> simp [initState]

lemma RegInv_armTimer (T now : Nat) (tg : String) (cl : List String)
    (s : ServerState)
    (h1 : ∀ q ∈ s.timers, alookup q.host s.registry = some q.tid)
    (h2 : (s.registry.map Prod.fst).Nodup)
    (h3 : (s.timers.map TimerEntry.tid).Nodup)
    (h4 : ∀ q ∈ s.timers, q.tid < s.nextId)
    (h5 : ∀ p ∈ s.registry, p.2 < s.nextId)
    (hno : ∀ q ∈ s.timers, q.host ≠ tg) :
    RegInv (armTimer T now tg cl s) := by
  refine ⟨?_, ⟨?_, ?_⟩, ⟨?_, ?_⟩⟩
  · intro q hq
    rcases List.mem_cons.mp hq with rfl | hq2
    · show alookup tg ((tg, s.nextId) :: aerase tg s.registry) = some s.nextId
      simp [alookup]
    · have hq3 := h1 q hq2
      have hne := hno q hq2
      show alookup q.host ((tg, s.nextId) :: aerase tg s.registry) = some q.tid
      simp only [alookup]
      rw [if_neg (fun he => hne he.symm), alookup_aerase_ne hne]
      exact hq3
  · show (((tg, s.nextId) :: aerase tg s.registry).map Prod.fst).Nodup
    simp only [List.map_cons, List.nodup_cons]
    refine ⟨?_, aerase_keys_nodup h2⟩
    intro hmem
    obtain ⟨p, hp, hpe⟩ := List.mem_map.mp hmem
    exact (mem_aerase hp).2 hpe
  · show (((⟨s.nextId, tg, now + T, cl⟩ : TimerEntry) :: s.timers).map
      TimerEntry.tid).Nodup
    simp only [List.map_cons, List.nodup_cons]
    refine ⟨?_, h3⟩
    intro hmem
    obtain ⟨q, hq, hqe⟩ := List.mem_map.mp hmem
    exact absurd hqe (Nat.ne_of_lt (h4 q hq))
  · intro q hq
    rcases List.mem_cons.mp hq with rfl | hq2
    · show s.nextId < s.nextId + 1
      exact Nat.lt_succ_self _
    · exact Nat.lt_succ_of_lt (h4 q hq2)
  · intro p hp
    rcases List.mem_cons.mp hp with rfl | hp2
    · show s.nextId < s.nextId + 1
      exact Nat.lt_succ_self _
    · exact Nat.lt_succ_of_lt (h5 _ (mem_aerase hp2).1)

lemma RegInv_request (T now : Nat) (tg name : String) (s : ServerState)
    (h : RegInv s) : RegInv (requestTransition T now tg name s) := by
  obtain ⟨h1, ⟨h2, h3⟩, ⟨h4, h5⟩⟩ := h
  rw [requestTransition]
  cases hlk : alookup tg s.registry with
  | none =>
    refine RegInv_armTimer T now tg [name] _ h1 h2 h3 h4 h5 ?_
    intro q hq he
    have hq3 := h1 q hq
    rw [he, hlk] at hq3
    exact Option.noConfusion hq3
  | some tid =>
    refine RegInv_armTimer T now tg [] _ ?_ h2 (tremove_tids_nodup h3) ?_ h5 ?_
    · intro q hq
      exact h1 q (mem_tremove hq).1
    · intro q hq
      exact h4 q (mem_tremove hq).1
    · intro q hq he
      have hq3 := h1 q (mem_tremove hq).1
      rw [he, hlk] at hq3
      exact (mem_tremove hq).2 (Option.some.inj hq3).symm

lemma RegInv_fire (tid now : Nat) (s : ServerState) (h : RegInv s) :
    RegInv (fireTimer tid now s) := by
  obtain ⟨h1, ⟨h2, h3⟩, ⟨h4, h5⟩⟩ := h
  rw [fireTimer]
  cases htf : tfind tid s.timers with
  | none => exact ⟨h1, ⟨h2, h3⟩, ⟨h4, h5⟩⟩
  | some q =>
    show RegInv (if q.deadline < now then
        ⟨aerase q.host s.registry, tremove tid s.timers,
          eremove q.cleanup s.engine, s.nextId⟩
      else s)
    by_cases hd : q.deadline < now
    · rw [if_pos hd]
      obtain ⟨hqmem, hqtid⟩ := tfind_spec htf
      refine ⟨?_, ⟨aerase_keys_nodup h2, tremove_tids_nodup h3⟩, ⟨?_, ?_⟩⟩
      · intro q2 hq2
        obtain ⟨hq2mem, hq2tid⟩ := mem_tremove hq2
        have hq23 := h1 q2 hq2mem
        have hne : q2.host ≠ q.host := by
          intro he
          have hq3 := h1 q hqmem
          rw [he, hq3] at hq23
          exact hq2tid ((Option.some.inj hq23).symm.trans hqtid)
        show alookup q2.host (aerase q.host s.registry) = some q2.tid
        rw [alookup_aerase_ne hne]
        exact hq23
      · intro q2 hq2
        exact h4 q2 (mem_tremove hq2).1
      · intro p hp
        exact h5 p (mem_aerase hp).1
    · rw [if_neg hd]
      exact ⟨h1, ⟨h2, h3⟩, ⟨h4, h5⟩⟩

lemma RegInv_step (T : Nat) (s : ServerState) (e : Nat × Ev) (h : RegInv s) :
    RegInv (stepEv T s e) := by
  obtain ⟨tm, ev⟩ := e
  cases ev with
  | request tg name => exact RegInv_request T tm tg name s h
  | fire tid => exact RegInv_fire tid tm s h

lemma RegInv_run (T : Nat) (tr : List (Nat × Ev)) : RegInv (runTrace T tr) := by
  rw [runTrace]
  have hgen : ∀ (l : List (Nat × Ev)) (s : ServerState),
      RegInv s → RegInv (l.foldl (stepEv T) s) := by
    intro l
    induction l with
    | nil => intro s h; exact h
    | cons e rest ih =>
      intro s h
      exact ih _ (RegInv_step T s e h)
  exact hgen tr initState RegInv_init

lemma timersOf_le_one (s : ServerState) (h : RegInv s) (tg : String) :
    (timersOf s tg).length ≤ 1 := by
  obtain ⟨h1, ⟨h2, h3⟩, _⟩ := h
  cases htf : timersOf s tg with
  | nil => simp
  | cons a ta =>
    cases ta with
    | nil => simp
    | cons b tb =>
      exfalso
      have hsub : (timersOf s tg).Sublist s.timers := List.filter_sublist _
      have hnd : ((timersOf s tg).map TimerEntry.tid).Nodup :=
        List.Nodup.sublist (List.Sublist.map TimerEntry.tid hsub) h3
      rw [htf] at hnd
      simp only [List.map_cons, List.nodup_cons] at hnd
      have hamem : a ∈ timersOf s tg := by
        rw [htf]
        exact List.mem_cons_self _ _
      have hbmem : b ∈ timersOf s tg := by
        rw [htf]
        exact List.mem_cons_of_mem _ (List.mem_cons_self _ _)
      have ha := List.mem_filter.mp hamem
      have hb := List.mem_filter.mp hbmem
      have hahost : a.host = tg := by simpa using ha.2
      have hbhost : b.host = tg := by simpa using hb.2
      have h1a := h1 a ha.1
      have h1b := h1 b hb.1
      rw [hahost] at h1a
      rw [hbhost] at h1b
      have habtid : a.tid = b.tid := Option.some.inj (h1a.symm.trans h1b)
      exact hnd.1 (by rw [habtid]; exact List.mem_cons_self _ _)

lemma refresh_step (T now : Nat) (tg name : String) (s : ServerState) (tid : Nat)
    (h : RegInv s) (hlk : alookup tg s.registry = some tid) :
    (∀ q ∈ (requestTransition T now tg name s).timers, q.tid ≠ tid) ∧
    timersOf (requestTransition T now tg name s) tg =
      [⟨s.nextId, tg, now + T, []⟩] := by
  obtain ⟨h1, ⟨h2, h3⟩, ⟨h4, h5⟩⟩ := h
  have htid : tid < s.nextId := h5 (tg, tid) (alookup_mem hlk)
  have heq : (requestTransition T now tg name s).timers =
      ⟨s.nextId, tg, now + T, []⟩ :: tremove tid s.timers := by
    simp only [requestTransition, hlk, armTimer]
  have hno : ∀ q ∈ tremove tid s.timers, q.host ≠ tg := by
    intro q hq he
    have hq3 := h1 q (mem_tremove hq).1
    rw [he, hlk] at hq3
    exact (mem_tremove hq).2 (Option.some.inj hq3).symm
  constructor
  · intro q hq
    rw [heq] at hq
    rcases List.mem_cons.mp hq with rfl | hq2
    · exact Nat.ne_of_gt htid
    · exact (mem_tremove hq2).2
  · have hrest : (tremove tid s.timers).filter (fun q => q.host == tg) = [] := by
      rw [List.filter_eq_nil_iff]
      intro q hq hc
      exact hno q hq (by simpa using hc)
    rw [timersOf, heq]
    simp [List.filter_cons, hrest]

/-- C5: over every event trace from startup, each hostname has at most one
live expiry timer at any reachable state; and a request for a hostname that
already has a live Ephemeral Entry stops the stored timer (it is no longer
live afterwards) and leaves the hostname guarded by exactly one fresh timer
scheduled `targets.timeout` seconds after the request. -/
theorem c5_at_most_one_timer :
    (∀ (T : Nat) (tr : List (Nat × Ev)) (tg : String),
        (timersOf (runTrace T tr) tg).length ≤ 1) ∧
    (∀ (T now : Nat) (tg name : String) (s : ServerState) (tid : Nat),
        RegInv s → alookup tg s.registry = some tid →
        (∀ q ∈ (requestTransition T now tg name s).timers, q.tid ≠ tid) ∧
        timersOf (requestTransition T now tg name s) tg =
          [⟨s.nextId, tg, now + T, []⟩]) := by
  constructor
  · intro T tr tg
    exact timersOf_le_one _ (RegInv_run T tr) tg
  · intro T now tg name s tid h hlk
    exact refresh_step T now tg name s tid h hlk

/-- Witness for C5 on a concrete refreshed state. -/
theorem c5_witness :
    (∀ q ∈ (requestTransition 10 5 "h" "n"
        ⟨[("h", 0)], [⟨0, "h", 10, ["n"]⟩], ["n"], 1⟩).timers, q.tid ≠ 0) ∧
    timersOf (requestTransition 10 5 "h" "n"
        ⟨[("h", 0)], [⟨0, "h", 10, ["n"]⟩], ["n"], 1⟩) "h" =
      [⟨1, "h", 15, []⟩] :=
  c5_at_most_one_timer.2 10 5 "h" "n"
    ⟨[("h", 0)], [⟨0, "h", 10, ["n"]⟩], ["n"], 1⟩ 0 (by decide) rfl

/-- C6 (code bug evaluated at the failing input): hostname "h" is requested
at t=0 (registering identity "h 1.2.3.4 ip4"), refreshed at t=2, then left
idle; its timer (deadline 12) fires at t=13.  The Ephemeral Entry is removed
from `targetsMap` and no timer stays live, but the engine registration
survives: the timer armed by the *refresh* captured a fresh `target` value on
which `addIfNew` was never called, so `t.cleanUp(t.addresses, monitor)` runs
with an empty address list and deregisters nothing, contradicting the claim
(and the spec's own idle-expiry scenario).  The second conjunct shows the
contrast: after a single un-refreshed request the same expiry does deregister
the address. -/
theorem c6_refresh_skips_deregistration :
    runTrace 10
        [(0, Ev.request "h" "h 1.2.3.4 ip4"),
         (2, Ev.request "h" "h 1.2.3.4 ip4"),
         (13, Ev.fire 1)] =
      ⟨[], [], ["h 1.2.3.4 ip4"], 2⟩ ∧
    runTrace 10 [(0, Ev.request "h" "h 1.2.3.4 ip4"), (11, Ev.fire 0)] =
      ⟨[], [], [], 1⟩ := by
  constructor <;> rfl

lemma append_newline_ne_empty (e : String) : e ++ "\n" ≠ "" := by
  intro h
  have hlen := congrArg String.length h
  rw [String.length_append] at hlen
  have h1 : ("\n" : String).length = 1 := rfl
  have h0 : ("" : String).length = 0 := rfl
  omega

/-- C4 counterexample: with "example.com" in the static target configuration
(the singleton list standing for `cfg.Targets`), a successful on-demand
request for that very hostname stores an Ephemeral Entry keyed by it — the
handler consults only `targetsMap` and never the static configuration, so
the claimed invariant fails in the very first reachable state. -/
theorem c4_counterexample :
    "example.com" ∈ ["example.com"] ∧
    alookup "example.com"
        (serveTargetRequest cfgDefault 10 0 "example.com" "ip4"
          (.ok ["93.184.216.34"]) (.ok ()) [] initState).2.registry =
      some 0 := by
  constructor
  · exact List.mem_cons_self _ _
  · rfl

/-- C4 (amended): the handler performs no static-configuration check at all —
every successful on-demand request, whether or not its hostname appears in
the static target list, stores an Ephemeral Entry for the requested hostname
(keyed to the freshly armed timer). -/
theorem c4_amended :
    ∀ (cfg : RenderConfig) (T now : Nat) (tg fam a : String)
      (rest : List String) (snap : Snapshot) (s : ServerState),
      alookup tg
          (serveTargetRequest cfg T now tg fam (.ok (a :: rest)) (.ok ())
            snap s).2.registry =
        some s.nextId := by
  intro cfg T now tg fam a rest snap s
  cases hlk : alookup tg s.registry with
  | none =>
    have hred : (serveTargetRequest cfg T now tg fam (.ok (a :: rest)) (.ok ())
        snap s).2 = requestTransition T now tg (mkName tg a fam) s := by
      simp only [serveTargetRequest, hlk]
    rw [hred]
    simp only [requestTransition, hlk, armTimer]
    simp [alookup]
  | some tid =>
    have hred : (serveTargetRequest cfg T now tg fam (.ok (a :: rest)) (.ok ())
        snap s).2 = requestTransition T now tg (mkName tg a fam) s := by
      simp only [serveTargetRequest, hlk]
    rw [hred]
    simp only [requestTransition, hlk, armTimer]
    simp [alookup]

/-- C7: resolution error yields 400 with a non-empty error body and an
unchanged state (nothing registered); an empty resolution result yields 400
with "cannot resolve target" and an unchanged state; a new hostname whose
engine registration fails yields 500 with an unchanged state; otherwise the
response is 200 carrying the single-target export for the first address's
Probe Identity, and the hostname's Ephemeral Entry holds the freshly armed
timer with deadline `now + targets.timeout`. -/
theorem c7_http_contract :
    (∀ (cfg : RenderConfig) (T now : Nat) (tg fam e : String)
        (reg : Except String Unit) (snap : Snapshot) (s : ServerState),
        serveTargetRequest cfg T now tg fam (.error e) reg snap s =
          (⟨400, .text (e ++ "\n")⟩, s) ∧ e ++ "\n" ≠ "") ∧
    (∀ (cfg : RenderConfig) (T now : Nat) (tg fam : String)
        (reg : Except String Unit) (snap : Snapshot) (s : ServerState),
        serveTargetRequest cfg T now tg fam (.ok []) reg snap s =
          (⟨400, .text "cannot resolve target\n"⟩, s) ∧
        ("cannot resolve target\n" : String) ≠ "") ∧
    (∀ (cfg : RenderConfig) (T now : Nat) (tg fam e : String)
        (snap : Snapshot) (s : ServerState) (a : String) (rest : List String),
        alookup tg s.registry = none →
        serveTargetRequest cfg T now tg fam (.ok (a :: rest)) (.error e) snap s =
          (⟨500, .text (e ++ "\n")⟩, s)) ∧
    (∀ (cfg : RenderConfig) (T now : Nat) (tg fam : String)
        (snap : Snapshot) (s : ServerState) (a : String) (rest : List String),
        (serveTargetRequest cfg T now tg fam (.ok (a :: rest)) (.ok ()) snap s).1 =
          ⟨200, .export (pingCollect cfg snap (mkName tg a fam))⟩ ∧
        alookup tg
            (serveTargetRequest cfg T now tg fam (.ok (a :: rest)) (.ok ())
              snap s).2.registry = some s.nextId ∧
        (∃ cl, (⟨s.nextId, tg, now + T, cl⟩ : TimerEntry) ∈
          (serveTargetRequest cfg T now tg fam (.ok (a :: rest)) (.ok ())
            snap s).2.timers)) := by
  refine ⟨?_, ?_, ?_, ?_⟩
  · intro cfg T now tg fam e reg snap s
    exact ⟨rfl, append_newline_ne_empty e⟩
  · intro cfg T now tg fam reg snap s
    exact ⟨rfl, by decide⟩
  · intro cfg T now tg fam e snap s a rest hlk
    simp only [serveTargetRequest, hlk]
  · intro cfg T now tg fam snap s a rest
    cases hlk : alookup tg s.registry with
    | none =>
      have hred : serveTargetRequest cfg T now tg fam (.ok (a :: rest)) (.ok ())
          snap s =
          (⟨200, .export (pingCollect cfg snap (mkName tg a fam))⟩,
            requestTransition T now tg (mkName tg a fam) s) := by
        simp only [serveTargetRequest, hlk]
      rw [hred]
      refine ⟨rfl, ?_, ?_⟩
      · simp only [requestTransition, hlk, armTimer]
        simp [alookup]
      · refine ⟨[mkName tg a fam], ?_⟩
        simp only [requestTransition, hlk, armTimer]
        exact List.mem_cons_self _ _
    | some tid =>
      have hred : serveTargetRequest cfg T now tg fam (.ok (a :: rest)) (.ok ())
          snap s =
          (⟨200, .export (pingCollect cfg snap (mkName tg a fam))⟩,
            requestTransition T now tg (mkName tg a fam) s) := by
        simp only [serveTargetRequest, hlk]
      rw [hred]
      refine ⟨rfl, ?_, ?_⟩
      · simp only [requestTransition, hlk, armTimer]
        simp [alookup]
      · refine ⟨[], ?_⟩
        simp only [requestTransition, hlk, armTimer]
        exact List.mem_cons_self _ _

/-- Witness for C7's 500 case at a concrete request. -/
theorem c7_witness :
    serveTargetRequest cfgDefault 10 0 "h" "ip4" (.ok ["1.2.3.4"])
        (.error "socket: permission denied") [] initState =
      (⟨500, .text ("socket: permission denied" ++ "\n")⟩, initState) :=
  c7_http_contract.2.2.1 cfgDefault 10 0 "h" "ip4" "socket: permission denied"
    [] initState "1.2.3.4" [] rfl
